import Mathlib

/-!
Verification of the c5c compiler core (lexer, semantic analyzer, code
generator, peephole optimizer) against its natural-language specification.

The Python sources are shallowly embedded: Python `str` values become Lean
`String`s, Python string operations are re-implemented structurally over the
underlying character lists (so that every definition is executable and
kernel-reducible), dictionaries become association lists that preserve the
insertion-order/overwrite semantics of Python dicts, and functions that
append diagnostics to `self.errors` are modelled as functions returning the
recorded error codes.
-/

namespace C5c

/-! ## Python string primitives

Each helper mirrors one Python `str` operation, working on `String.data`
so that everything computes by kernel reduction. -/

/-- Python `s.startswith(pre)`. -/
def pyStartsWith (s pre : String) : Bool :=
  List.isPrefixOf pre.data s.data

/-- Python `s.endswith(suf)`. -/
def pyEndsWith (s suf : String) : Bool :=
  List.isSuffixOf suf.data s.data

/-- Python `s[n:]`. -/
def pyDrop (s : String) (n : Nat) : String :=
  ⟨s.data.drop n⟩

/-- Python `s[n:-1]`. -/
def pySliceToLast (s : String) (n : Nat) : String :=
  ⟨(s.data.drop n).dropLast⟩

/-- Python `s.split(sep, 1)[1]` (the remainder after the first occurrence of
the separator character; `""` when the separator does not occur, a case the
sources never reach on this path). -/
def pySplitRest (s : String) (sep : Char) : String :=
  ⟨(s.data.dropWhile (fun c => ¬ (c = sep))).drop 1⟩

/-- Python `int(s)` restricted to the plain decimal-digit strings the
compiler feeds it (`None` models the `ValueError` branch). -/
def pyToNat? (s : String) : Option Nat :=
  if s.data ≠ [] ∧ s.data.all Char.isDigit then
    some (s.data.foldl (fun acc c => acc * 10 + (c.toNat - 48)) 0)
  else none

/-- Code-point lexicographic `<=` on character lists, as Python compares
strings. -/
def pyLeList : List Char → List Char → Bool
  | [], _ => true
  | _ :: _, [] => false
  | c :: cs, d :: ds =>
    c.toNat < d.toNat || (c.toNat = d.toNat && pyLeList cs ds)

/-- Python `a <= b` on strings. -/
def pyStrLe (a b : String) : Bool :=
  pyLeList a.data b.data

/-- Python `a <= b` as a proposition, for use with the sorting lemmas. -/
def pyStrLeP (a b : String) : Prop :=
  pyStrLe a b = true

instance : DecidableRel pyStrLeP := fun a b => by
  unfold pyStrLeP; infer_instance

/-- Python `sorted(l)` on strings.  Python uses a stable comparison sort;
since string comparison is a linear order, any comparison sort computes the
same list, so it is modelled by insertion sort. -/
def pySorted (l : List String) : List String :=
  List.insertionSort pyStrLeP l

/-! ## Association lists modelling Python dicts -/

/-- Python `k in d`. -/
def dictContains {α : Type} (d : List (String × α)) (k : String) : Bool :=
  d.any (fun p => p.1 == k)

/-- Python `d[k]` (`None` when absent). -/
def dictGet? {α : Type} (d : List (String × α)) (k : String) : Option α :=
  (d.find? (fun p => p.1 == k)).map (fun p => p.2)

/-- Python `d[k] = v`: overwrite in place when the key exists (Python dicts
keep the original insertion position), otherwise append. -/
def dictSet {α : Type} (d : List (String × α)) (k : String) (v : α) :
    List (String × α) :=
  if dictContains d k then
    d.map (fun p => if p.1 == k then (k, v) else p)
  else d ++ [(k, v)]

/-! ## Semantic analyzer: type predicates (analyzer.py)

`TypeEnv` is the analyzer's `self.types` dict: the declared tagged-union
type aliases, each mapping to its member-type list. -/

abbrev TypeEnv := List (String × List String)

/-- `SemanticAnalyzer._normalize_type` (analyzer.py lines 264-270). -/
def normalize_type (ty : String) : String :=
  if ty == "int" then "int<64>"
  else if ty == "float" then "float<64>"
  else ty

/-- `SemanticAnalyzer._is_integer_type` (analyzer.py lines 243-255). -/
def is_integer_type (ty : String) : Bool :=
  let ty := if pyStartsWith ty "const " then pyDrop ty 6 else ty
  if ty == "int" || ty == "char" then true
  else if pyStartsWith ty "unsigned " || pyStartsWith ty "signed " then
    let base := pySplitRest ty ' '
    base == "int" || base == "char" || pyStartsWith base "int<"
  else if pyStartsWith ty "int<" && pyEndsWith ty ">" then true
  else false

/-- `SemanticAnalyzer._int_literal_fits` (analyzer.py lines 288-318).
Returns whether the literal `value` fits the type `ty` without recording an
error.  (For `int<0>` with a signed prefix the Python original raises on
`1 << -1`; this model is total there, a case no range below ever uses.) -/
def int_literal_fits (ty : String) (value : Int) : Bool :=
  let ty := if pyStartsWith ty "const " then pyDrop ty 6 else ty
  let signed : Bool := if pyStartsWith ty "unsigned " then false else true
  let base_ty : String :=
    if pyStartsWith ty "unsigned " then pyDrop ty 9
    else if pyStartsWith ty "signed " then pyDrop ty 7
    else ty
  let bits? : Option Nat :=
    if base_ty == "int" then some 64
    else if base_ty == "char" then some 8
    else if pyStartsWith base_ty "int<" && pyEndsWith base_ty ">" then
      pyToNat? (pySliceToLast base_ty 4)
    else none
  match bits? with
  | none => false
  | some bits =>
    let min_val : Int := if signed then -(2 ^ (bits - 1) : Int) else 0
    let max_val : Int := if signed then (2 ^ (bits - 1) : Int) - 1
                         else (2 ^ bits : Int) - 1
    decide (min_val ≤ value ∧ value ≤ max_val)

/-- `SemanticAnalyzer._check_int_literal_range` (analyzer.py lines 744-775),
modelled by the error code it records (`none` means it records nothing).
Note the source does not strip a `const ` prefix here, and silently skips
the check both for non-integer base types and for an unparsable `int<...>`
width. -/
def check_int_literal_range (ty : String) (value : Int) : Option String :=
  let base_ty : String :=
    if pyStartsWith ty "unsigned " then pyDrop ty 9
    else if pyStartsWith ty "signed " then pyDrop ty 7
    else ty
  let signed : Bool := if pyStartsWith ty "unsigned " then false else true
  let bits? : Option Nat :=
    if base_ty == "int" then some 64
    else if base_ty == "char" then some 8
    else if pyStartsWith base_ty "int<" && pyEndsWith base_ty ">" then
      pyToNat? (pySliceToLast base_ty 4)
    else none
  match bits? with
  | none => none
  | some bits =>
    let min_val : Int := if signed then -(2 ^ (bits - 1) : Int) else 0
    let max_val : Int := if signed then (2 ^ (bits - 1) : Int) - 1
                         else (2 ^ bits : Int) - 1
    if value < min_val ∨ max_val < value then some "E023" else none

/-- `SemanticAnalyzer._check_int_literal_against_type` (analyzer.py lines
320-335), modelled by the error code it records.  Error messages are elided;
`"E002"` is the Type Mismatch diagnostic, `"E023"` the Integer Overflow
diagnostic. -/
def check_int_literal_against_type (types : TypeEnv) (ty : String)
    (value : Int) : Option String :=
  match dictGet? types ty with
  | some members =>
    let int_members := members.filter is_integer_type
    if int_members.isEmpty then some "E002"
    else if int_members.any (fun m => int_literal_fits m value) then none
    else some "E023"
  | none =>
    if is_integer_type ty then check_int_literal_range ty value
    else some "E002"

/-- `SemanticAnalyzer._types_compatible` (analyzer.py lines 272-286).  The
Python original recurses through union members; the `fuel` argument bounds
that recursion (on an acyclic alias graph — the only case where the Python
original terminates — any fuel at least the alias count gives the Python
answer). -/
def types_compatible (types : TypeEnv) :
    Nat → String → String → Bool
  | fuel, target_type, source_type =>
    match dictGet? types target_type with
    | some members =>
      match fuel with
      | 0 => false
      | fuel + 1 =>
        members.any (fun mem => types_compatible types fuel mem source_type)
    | none =>
      if (dictGet? types source_type).isSome then false
      else normalize_type target_type == normalize_type source_type

/-! ## Semantic analyzer: final error reporting (analyzer.py lines 103-133)

`analyze` ends with: if any errors were recorded, print
`sorted(list(set(self.errors)))` and `sys.exit(1)`; otherwise return
normally (then print warnings).  The observable outcome is modelled as
`none` for a normal return and `some printed` for the `exit(1)` path. -/

def analyze_finalize (errors : List String) : Option (List String) :=
  if errors.isEmpty then none
  else some (pySorted errors.dedup)

/-! ## Semantic analyzer: declaration pre-pass (analyzer.py lines 777-803) -/

/-- Top-level declarations as seen by `_scan_declarations`.  `ext` is the
`extern` node. -/
inductive TopDecl : Type
  | func (name : String) (retTy : String) (paramCount : Nat)
  | ext (name : String) (retTy : String) (paramCount : Nat) (varargs : Bool)
  | struct_decl (name : String) (fields : List (String × String))
  | enum_decl (name : String) (variants : List String)
  | type_decl (name : String) (members : List String)
  | pub_var (name : String) (ty : String)

/-- The analyzer state touched by `_scan_declarations`: `self.functions`,
`self.structs`, `self.enums`, `self.types`, `self.scopes[0]` and the error
list (kept as codes). -/
structure ScanState : Type where
  functions : List (String × (String × Nat × Bool × Bool))
  structs : List (String × List (String × String))
  enums : List (String × List String)
  types : TypeEnv
  globals : List (String × String)
  errors : List String

def ScanState.initial : ScanState :=
  ⟨[], [], [], [], [], []⟩

/-- One iteration of the `_scan_declarations` loop body. -/
def scan_declarations_step (st : ScanState) (node : TopDecl) : ScanState :=
  match node with
  | .func name ty paramCount =>
    let st :=
      if dictContains st.functions name then
        { st with errors := st.errors ++ ["E010"] }
      else st
    { st with functions :=
        dictSet st.functions name (ty, paramCount, false, false) }
  | .ext name ty paramCount varargs =>
    { st with functions :=
        dictSet st.functions name (ty, paramCount, varargs, true) }
  | .struct_decl name fields =>
    { st with structs := dictSet st.structs name fields }
  | .enum_decl name variants =>
    { st with enums := dictSet st.enums name variants }
  | .type_decl name members =>
    let st :=
      if dictContains st.types name then
        { st with errors := st.errors ++ ["E015"] }
      else st
    { st with types := dictSet st.types name members }
  | .pub_var name ty =>
    let st :=
      if dictContains st.globals name then
        { st with errors := st.errors ++ ["E015"] }
      else st
    { st with globals := dictSet st.globals name ty }

/-- `SemanticAnalyzer._scan_declarations` over a top-level node list. -/
def scan_declarations (ast : List TopDecl) : ScanState :=
  ast.foldl scan_declarations_step ScanState.initial

/-! ## Lexer (lexer.py)

`lex` builds one big alternation regex from `token_specification` and, at
each position, Python's `re` module takes the first alternative that
matches.  Each alternative is simple enough to model as a direct matcher on
the remaining character list, returning the matched lexeme. -/

def isWordChar (c : Char) : Bool :=
  c.isAlpha || c.isDigit || c = '_'

/-- Matcher for `r'kw\b'`: the keyword followed by a word boundary. -/
def kwMatch (kw : String) (input : List Char) : Option (List Char) :=
  if List.isPrefixOf kw.data input then
    match input.drop kw.data.length with
    | [] => some kw.data
    | c :: _ => if isWordChar c then none else some kw.data
  else none

/-- Matcher for a literal punctuation regex. -/
def litMatch (p : String) (input : List Char) : Option (List Char) :=
  if List.isPrefixOf p.data input then some p.data else none

/-- Matcher for `r'//[^\n]*'`. -/
def commentMatch (input : List Char) : Option (List Char) :=
  match input with
  | '/' :: '/' :: rest =>
    some ('/' :: '/' :: rest.takeWhile (fun c => ¬ (c = '\n')))
  | _ => none

/-- Matcher for `r'\d+\.\d+'`. -/
def floatMatch (input : List Char) : Option (List Char) :=
  let d1 := input.takeWhile Char.isDigit
  if d1.isEmpty then none
  else
    match input.drop d1.length with
    | '.' :: rest =>
      let d2 := rest.takeWhile Char.isDigit
      if d2.isEmpty then none else some (d1 ++ '.' :: d2)
    | _ => none

/-- Matcher for `r'\d+'`. -/
def numberMatch (input : List Char) : Option (List Char) :=
  let d := input.takeWhile Char.isDigit
  if d.isEmpty then none else some d

/-- One unit of `(?:\\.|[^Q\\])` where `Q` is the enclosing quote:
either a backslash escape (whose second character may not be a newline)
or a single character that is neither the quote nor a backslash. -/
def quotedUnit (quote : Char) (input : List Char) : Option (List Char) :=
  match input with
  | '\\' :: c :: _ => if c = '\n' then none else some ['\\', c]
  | c :: _ => if c = quote ∨ c = '\\' then none else some [c]
  | [] => none

/-- Matcher for the CHAR regex `r"'(?:\\.|[^'\\])'"`. -/
def charMatch (input : List Char) : Option (List Char) :=
  match input with
  | '\'' :: rest =>
    match quotedUnit '\'' rest with
    | some u =>
      (match rest.drop u.length with
       | '\'' :: _ => some ('\'' :: u ++ ['\''])
       | _ => none)
    | none => none
  | _ => none

/-- The repeated middle of the STRING regex, greedily consuming units until
the closing quote. -/
def stringBody : List Char → Option (List Char)
  | [] => none
  | '"' :: _ => some []
  | '\\' :: c :: rest =>
    if c = '\n' then none
    else (stringBody rest).map (fun t => '\\' :: c :: t)
  | '\\' :: [] => none
  | c :: rest =>
    if c = '"' ∨ c = '\\' then none
    else (stringBody rest).map (fun t => c :: t)

/-- Matcher for the STRING regex `r'"(?:\\.|[^"\\])*"'`. -/
def stringMatch (input : List Char) : Option (List Char) :=
  match input with
  | '"' :: rest =>
    (stringBody rest).map (fun body => '"' :: body ++ ['"'])
  | _ => none

/-- Matcher for `r'[a-zA-Z_][a-zA-Z0-9_]*'`. -/
def idMatch (input : List Char) : Option (List Char) :=
  match input with
  | c :: _ =>
    if c.isAlpha || c = '_' then some (input.takeWhile isWordChar) else none
  | [] => none

/-- Matcher for `r'[ \t\r]+'`. -/
def skipMatch (input : List Char) : Option (List Char) :=
  let d := input.takeWhile (fun c => c = ' ' ∨ c = '\t' ∨ c = '\r')
  if d.isEmpty then none else some d

/-- Matcher for `r'.'` (any character except a newline). -/
def mismatchMatch (input : List Char) : Option (List Char) :=
  match input with
  | c :: _ => if c = '\n' then none else some [c]
  | [] => none

/-- `token_specification` (lexer.py lines 13-60), in source order.  Note
that it has no entries for `foreach`, `switch`, `case`, `default`, `break`,
`type`, `macro`, `const`, `fnct` or `in`. -/
def token_specification : List (String × (List Char → Option (List Char))) :=
  [("COMMENT", commentMatch),
   ("INCLUDE", kwMatch "include"),
   ("VOID", kwMatch "void"),
   ("RETURN", kwMatch "return"),
   ("IF", kwMatch "if"),
   ("ELSE", kwMatch "else"),
   ("WHILE", kwMatch "while"),
   ("FOR", kwMatch "for"),
   ("DO", kwMatch "do"),
   ("STRUCT", kwMatch "struct"),
   ("ENUM", kwMatch "enum"),
   ("LET", kwMatch "let"),
   ("SIGNED", kwMatch "signed"),
   ("UNSIGNED", kwMatch "unsigned"),
   ("ELLIPSIS", litMatch "..."),
   ("DOT", litMatch "."),
   ("COLONCOLON", litMatch "::"),
   ("EQ", litMatch "=="),
   ("NEQ", litMatch "!="),
   ("LEQ", litMatch "<="),
   ("GEQ", litMatch ">="),
   ("LT", litMatch "<"),
   ("GT", litMatch ">"),
   ("LPAREN", litMatch "("),
   ("RPAREN", litMatch ")"),
   ("LBRACE", litMatch "\x7b"),
   ("RBRACE", litMatch "\x7d"),
   ("COMMA", litMatch ","),
   ("SEMI", litMatch ";"),
   ("ASSIGN", litMatch "="),
   ("ARROW", litMatch "->"),
   ("LBRACKET", litMatch "["),
   ("RBRACKET", litMatch "]"),
   ("PLUS", litMatch "+"),
   ("MINUS", litMatch "-"),
   ("MUL", litMatch "*"),
   ("DIV", litMatch "/"),
   ("AMP", litMatch "&"),
   ("FLOAT", floatMatch),
   ("NUMBER", numberMatch),
   ("CHAR", charMatch),
   ("STRING", stringMatch),
   ("ID", idMatch),
   ("NEWLINE", litMatch "\n"),
   ("SKIP", skipMatch),
   ("MISMATCH", mismatchMatch)]

/-- Try the token alternatives in order, as `re` does with an ordered
alternation: the first alternative that matches wins. -/
def firstTokenMatch (specs : List (String × (List Char → Option (List Char))))
    (input : List Char) : Option (String × List Char) :=
  match specs with
  | [] => none
  | (kind, m) :: rest =>
    match m input with
    | some lexeme => some (kind, lexeme)
    | none => firstTokenMatch rest input

/-- `Token` (lexer.py lines 3-10); `value` is the lexeme text except for
CHAR tokens, whose value is the ordinal of the decoded character. -/
structure Tok : Type where
  type : String
  valueStr : String
  valueNum : Nat
  line : Nat
  column : Nat

/-- The `unicode_escape` decoding applied to string and char lexemes,
restricted to the language's documented escape set
(`\n \t \r \\ \' \"`); an unknown escape is kept verbatim, as
`unicode_escape` does. -/
def decodeEscapes : List Char → List Char
  | [] => []
  | '\\' :: c :: rest =>
    (if c = 'n' then ['\n']
     else if c = 't' then ['\t']
     else if c = 'r' then ['\r']
     else if c = '\\' then ['\\']
     else if c = '\'' then ['\'']
     else if c = '"' then ['"']
     else ['\\', c]) ++ decodeEscapes rest
  | c :: rest => c :: decodeEscapes rest

/-- Build the token recorded for one match (lexer.py lines 77-84). -/
def mkTok (kind : String) (lexeme : List Char) (line col : Nat) : Tok :=
  if kind == "STRING" then
    ⟨kind, ⟨decodeEscapes (lexeme.drop 1).dropLast⟩, 0, line, col⟩
  else if kind == "CHAR" then
    let decoded := decodeEscapes (lexeme.drop 1).dropLast
    ⟨kind, "", (decoded.headD ' ').toNat, line, col⟩
  else
    ⟨kind, ⟨lexeme⟩, 0, line, col⟩

/-- The scanning loop of `lex` (lexer.py lines 62-85).  `fuel` only
totalizes the recursion; every successful match consumes at least one
character, so `input.length` fuel always suffices. -/
def lexLoop (fuel : Nat) (input : List Char) (pos lineNum lineStart : Nat)
    (acc : List Tok) : Except String (List Tok) :=
  match fuel with
  | 0 => .ok (acc ++ [⟨"EOF", "", 0, lineNum, 0⟩])
  | fuel + 1 =>
    match firstTokenMatch token_specification input with
    | none => .ok (acc ++ [⟨"EOF", "", 0, lineNum, 0⟩])
    | some (kind, lexeme) =>
      let column := pos - lineStart
      let rest := input.drop lexeme.length
      let pos' := pos + lexeme.length
      if kind == "NEWLINE" then
        lexLoop fuel rest pos' (lineNum + 1) pos' acc
      else if kind == "SKIP" || kind == "COMMENT" then
        lexLoop fuel rest pos' lineNum lineStart acc
      else if kind == "MISMATCH" then
        .error ("unexpected character on line " ++ toString lineNum)
      else
        lexLoop fuel rest pos' lineNum lineStart
          (acc ++ [mkTok kind lexeme lineNum column])

/-- `lex` (lexer.py lines 12-86). -/
def lex (code : String) : Except String (List Tok) :=
  lexLoop code.data.length code.data 0 1 0 []

/-- The token kinds of a successful lex, for stating lexer facts. -/
def lexKinds (code : String) : Except String (List String) :=
  (lex code).map (fun toks => toks.map Tok.type)

/-! ## Code generator: struct layout (codegen.py lines 337-351)

The layout loop depends on `self.sizeof` only through the size of each
field type, so it is parameterised by an arbitrary size function `S`. -/

/-- The padding step `if offset % align != 0: offset += align - (offset %
align)`.  (With `align = 0` the Python original raises `ZeroDivisionError`;
here `offset % 0 = offset` makes the step a no-op, a case excluded by the
theorems' positivity hypothesis.) -/
def padTo (offset align : Nat) : Nat :=
  if offset % align ≠ 0 then offset + (align - offset % align) else offset

/-- The field loop of the `struct_decl` branch of `CodeGen.generate`:
fields are `(type, name)` pairs, the result lists `(name, offset, type)`
entries in declaration order together with the final cursor. -/
def layoutFields (S : String → Nat) :
    List (String × String) → Nat → List (String × Nat × String) × Nat
  | [], offset => ([], offset)
  | (fty, fname) :: rest, offset =>
    let sz := S fty
    let align := if sz < 8 then sz else 8
    let offset := padTo offset align
    let (tail, final) := layoutFields S rest (offset + sz)
    ((fname, offset, fty) :: tail, final)

/-- The computed struct layout: the field table and the total size (the
final cursor padded to a multiple of 8). -/
def struct_layout (S : String → Nat) (fields : List (String × String)) :
    List (String × Nat × String) × Nat :=
  let (info, offset) := layoutFields S fields 0
  (info, padTo offset 8)

/-- Modelled from the spec: the smallest multiple of `a` that is at least
`c` (meaningful for `a > 0`). -/
def leastMultipleGE (a c : Nat) : Nat :=
  a * ((c + a - 1) / a)

/-- Modelled from the spec: the layout that places each field at the
smallest multiple of `min(size, 8)` at or past the cursor and pads the
total to a multiple of 8. -/
def spec_layoutFields (S : String → Nat) :
    List (String × String) → Nat → List (String × Nat × String) × Nat
  | [], offset => ([], offset)
  | (fty, fname) :: rest, offset =>
    let sz := S fty
    let offset := leastMultipleGE (min sz 8) offset
    let (tail, final) := spec_layoutFields S rest (offset + sz)
    ((fname, offset, fty) :: tail, final)

/-- Modelled from the spec: spec-side struct layout. -/
def spec_struct_layout (S : String → Nat) (fields : List (String × String)) :
    List (String × Nat × String) × Nat :=
  let (info, offset) := spec_layoutFields S fields 0
  (info, leastMultipleGE 8 offset)

/-! ## Code generator: call-target and label naming (C10)

codegen.py lines 1822-1827 pick the call name from a `namespace_access`
target, line 2110 emits the call, lines 510-512 emit the function label,
`CodeGen.mangle` (line 26-27) rewrites `::` for global-variable labels,
and compiler.py line 174 renames an included function. -/

/-- Python `s.replace(old, new)`: replace non-overlapping occurrences left
to right. -/
def pyReplaceAux (old new : List Char) : Nat → List Char → List Char
  | _, [] => []
  | 0, l => l
  | fuel + 1, l =>
    if List.isPrefixOf old l then new ++ pyReplaceAux old new fuel (l.drop old.length)
    else
      match l with
      | [] => []
      | c :: rest => c :: pyReplaceAux old new fuel rest

/-- `CodeGen.mangle` (codegen.py lines 26-27): `name.replace('::', '_')`
(the empty pattern never occurs; fuel is the string length). -/
def mangle (name : String) : String :=
  ⟨pyReplaceAux "::".data "_".data name.data.length name.data⟩

/-- codegen.py lines 1822-1827: for a `namespace_access` call target the
generator computes `full_func_name = f"{base}::{name}"` and
`func_name = name`. -/
def call_target_names (base name : String) : String × String :=
  (base ++ "::" ++ name, name)

/-- codegen.py line 2110: the emitted direct-call instruction uses only
`func_name`. -/
def gen_call_line (func_name : String) : String :=
  "    call " ++ func_name ++ "@PLT"

/-- codegen.py lines 510-512: the function definition label lines. -/
def gen_func_header (name : String) : List String :=
  [".global " ++ name, ".type " ++ name ++ ", @function", name ++ ":"]

/-- compiler.py line 174: an included function or extern named `name` in a
header with stem `stem` is renamed to `stem::name`. -/
def include_namespace (stem name : String) : String :=
  stem ++ "::" ++ name

/-! ## Peephole optimizer (optimizer.py lines 41-132) -/

/-- Python `line.strip()` (str.strip with no argument strips ASCII
whitespace; the compiler only ever emits the characters below). -/
def pyIsSpace (c : Char) : Bool :=
  c = ' ' ∨ c = '\t' ∨ c = '\n' ∨ c = '\r' ∨ c = '\x0b' ∨ c = '\x0c'

/-- Python `line.strip()`. -/
def pyStrip (s : String) : String :=
  ⟨((s.data.dropWhile pyIsSpace).reverse.dropWhile pyIsSpace).reverse⟩

/-- Python `s.split(', ')` over the character list (non-overlapping,
left to right). -/
def pySplitCS : List Char → List Char → List (List Char)
  | [], acc => [acc.reverse]
  | ',' :: ' ' :: rest, acc => acc.reverse :: pySplitCS rest []
  | c :: rest, acc => pySplitCS rest (c :: acc)

/-- Python `s.split(', ')`. -/
def pySplitCommaSpace (s : String) : List String :=
  (pySplitCS s.data []).map (fun l => ⟨l⟩)

/-- Python `line[:line.index('p')]`, the leading whitespace kept in front
of a rewritten `push`/`pop` pair (every use site guarantees a `p` exists;
without one this keeps the whole line where Python would raise). -/
def leadBeforeP (line : String) : String :=
  ⟨line.data.takeWhile (fun c => ¬ (c = 'p'))⟩

/-- Condition of the `mov A, B ; mov B, A` window (optimizer.py lines
78-86). -/
def movSwapCond (s next_s : String) : Bool :=
  pyStartsWith s "mov " && pyStartsWith next_s "mov " &&
    (let p1 := pySplitCommaSpace (pyDrop s 4)
     let p2 := pySplitCommaSpace (pyDrop next_s 4)
     p1.length = 2 && p2.length = 2 &&
       p1.getD 0 "" == p2.getD 1 "" && p1.getD 1 "" == p2.getD 0 "")

/-- Condition of the `mov A, A` removal (optimizer.py lines 100-106). -/
def movSelfCond (s : String) : Bool :=
  pyStartsWith s "mov " &&
    (let p1 := pySplitCommaSpace (pyDrop s 4)
     p1.length = 2 && p1.getD 0 "" == p1.getD 1 "")

/-- `parts[-1] if len(parts) == 2 else ''` for the 3-instruction window
(optimizer.py lines 116-117): the destination operand of the middle `mov`,
computed from the split of the whole stripped line. -/
def threeWinDest (next_s : String) : String :=
  let parts := pySplitCommaSpace next_s
  if parts.length = 2 then parts.getLastD "" else ""

/-- Condition of the `push A ; mov X, B ; pop C` window (optimizer.py
lines 113-120). -/
def threeWinCond (s next_s s3 : String) : Bool :=
  pyStartsWith s "push " && pyStartsWith next_s "mov " &&
    pyStartsWith s3 "pop " &&
    (let b_dest := threeWinDest next_s
     ¬ (b_dest = "") && ¬ (pyDrop s 5 = b_dest) && ¬ (pyDrop s3 4 = b_dest))

/-- One pass of the inner `while i < len(asm_lines)` loop of
`Optimizer.optimize_asm`: the rewritten line list together with the
`changed` flag.  Each branch mirrors one pattern, in source order, and
every pattern requires a following line (the last line is always kept). -/
def scanPass : List String → List String × Bool
  | [] => ([], false)
  | [x] => ([x], false)
  | x :: y :: rest =>
    if pyStartsWith (pyStrip x) "jmp " &&
        pyStrip y == pyDrop (pyStrip x) 4 ++ ":" then
      ((scanPass (y :: rest)).1, true)
    else if pyStartsWith (pyStrip x) "push " &&
        pyStartsWith (pyStrip y) "pop " then
      if pyDrop (pyStrip x) 5 == pyDrop (pyStrip y) 4 then
        ((scanPass rest).1, true)
      else
        ((leadBeforeP x ++ "mov " ++ pyDrop (pyStrip x) 5 ++ ", " ++
            pyDrop (pyStrip y) 4) :: (scanPass rest).1, true)
    else if movSwapCond (pyStrip x) (pyStrip y) then
      (x :: (scanPass rest).1, true)
    else if pyStartsWith (pyStrip x) "add $0," then
      ((scanPass (y :: rest)).1, true)
    else if pyStartsWith (pyStrip x) "sub $0," then
      ((scanPass (y :: rest)).1, true)
    else if movSelfCond (pyStrip x) then
      ((scanPass (y :: rest)).1, true)
    else
      match hr : rest with
      | z :: rest2 =>
        if threeWinCond (pyStrip x) (pyStrip y) (pyStrip z) then
          ((if pyDrop (pyStrip x) 5 == pyDrop (pyStrip z) 4 then [] else
              [leadBeforeP x ++ "mov " ++ pyDrop (pyStrip x) 5 ++ ", " ++
                pyDrop (pyStrip z) 4]) ++ y ::
            (scanPass rest2).1, true)
        else
          (x :: (scanPass (y :: rest)).1, (scanPass (y :: rest)).2)
      | [] =>
        (x :: (scanPass [y]).1, (scanPass [y]).2)
termination_by l => l.length
decreasing_by all_goals simp_all <;> omega

/-- The outer `while changed` loop.  The fuel only totalizes the loop:
every changed pass strictly shrinks the line list (theorem
`scanPass_length_lt` below), so `length + 1` passes always reach the fixed
point, exactly as the Python loop does. -/
def optimize_asm_loop : Nat → List String → List String
  | 0, asm_lines => asm_lines
  | fuel + 1, asm_lines =>
    let p := scanPass asm_lines
    if p.2 then optimize_asm_loop fuel p.1 else p.1

/-- `Optimizer.optimize_asm` (optimizer.py lines 41-132). -/
def optimize_asm (asm_lines : List String) : List String :=
  optimize_asm_loop (asm_lines.length + 1) asm_lines

/-! ## Code generator: statements, returns and the function epilogue (C9)

`CodeGen.gen_stmt` / `CodeGen.gen_func` (codegen.py lines 503-1073).  What
the claim is about is the threading of `self.func_has_return` through the
statement walk and the conditional trailing epilogue; expression emission
never touches that flag (`gen_expr`'s lambda branch saves and restores it,
lines 1137/1204), so each expression position is modelled abstractly by the
lines it emits. -/

/-- Statements as seen by `gen_stmt`.  `List String` fields stand for the
code emitted for the embedded expressions (or, for `var_decl` and the
foreach bookkeeping, for the non-control emission of the branch). -/
inductive CStmt : Type
  | expr_stmt (code : List String)
  | var_decl (code : List String)
  | return_stmt (code : List String)
  | break_stmt
  | if_stmt (condCode : List String) (body : List CStmt)
      (elseBody : Option (List CStmt))
  | while_stmt (condCode : List String) (body : List CStmt)
  | do_while_stmt (body : List CStmt) (condCode : List String)
  | for_stmt (init : CStmt) (condCode incCode : List String)
      (body : List CStmt)
  | foreach_stmt (setupCode condPre loadCode incCode : List String)
      (body : List CStmt)
  | switch_stmt (condCode : List String)
      (cases : List (String × List CStmt)) (dflt : Option (List CStmt))

/-- The generator state the statement walk touches: the emitted text,
`self.func_has_return`, `self.label_count` and `self.break_targets`. -/
structure GenSt : Type where
  text : List String
  hasReturn : Bool
  labelCount : Nat
  breakTargets : List String

mutual

/-- `CodeGen.gen_stmt` (codegen.py lines 610-1073), at statement
granularity. -/
def genStmt (st : GenSt) : CStmt → GenSt
  | .expr_stmt code => { st with text := st.text ++ code }
  | .var_decl code => { st with text := st.text ++ code }
  | .return_stmt code =>
    -- lines 764-765 set self.func_has_return = True; every return path
    -- ends in `leave; ret` (lines 777-778, 831-832, 836-837)
    { st with hasReturn := true,
              text := st.text ++ code ++ ["    leave", "    ret"] }
  | .break_stmt =>
    -- lines 999-1003 (raises when the target stack is empty; unreachable
    -- after analysis, modelled as emitting nothing)
    match st.breakTargets with
    | [] => st
    | t :: _ => { st with text := st.text ++ ["    jmp " ++ t] }
  | .if_stmt condCode body elseBody =>
    let n := st.labelCount + 1
    let elseL := ".Lelse_" ++ toString n
    let endL := ".Lend_" ++ toString n
    let st := { st with labelCount := n }
    let st := { st with text := st.text ++ condCode ++ ["    cmp $0, %rax",
      (if elseBody.isSome then "    je " ++ elseL else "    je " ++ endL)] }
    let st := genStmts st body
    let st :=
      match elseBody with
      | none => st
      | some els =>
        let st := { st with
          text := st.text ++ ["    jmp " ++ endL, elseL ++ ":"] }
        genStmts st els
    { st with text := st.text ++ [endL ++ ":"] }
  | .while_stmt condCode body =>
    let n := st.labelCount + 1
    let condL := ".Lwhile_cond_" ++ toString n
    let endL := ".Lwhile_end_" ++ toString n
    let st := { st with labelCount := n }
    let st := { st with text := st.text ++ [condL ++ ":"] ++ condCode ++
      ["    cmp $0, %rax", "    je " ++ endL] }
    let st := genStmts { st with breakTargets := endL :: st.breakTargets } body
    let st := { st with breakTargets := st.breakTargets.tail }
    { st with text := st.text ++ ["    jmp " ++ condL, endL ++ ":"] }
  | .do_while_stmt body condCode =>
    let n := st.labelCount + 1
    let startL := ".Ldo_start_" ++ toString n
    let endL := ".Ldo_end_" ++ toString n
    let st := { st with labelCount := n }
    let st := { st with text := st.text ++ [startL ++ ":"] }
    let st := genStmts { st with breakTargets := endL :: st.breakTargets } body
    let st := { st with breakTargets := st.breakTargets.tail }
    { st with text := st.text ++ condCode ++
      ["    cmp $0, %rax", "    jne " ++ startL, endL ++ ":"] }
  | .for_stmt init condCode incCode body =>
    let n := st.labelCount + 1
    let condL := ".Lfor_cond_" ++ toString n
    let endL := ".Lfor_end_" ++ toString n
    let st := { st with labelCount := n }
    let st := genStmt st init
    let st := { st with text := st.text ++ [condL ++ ":"] ++ condCode ++
      ["    cmp $0, %rax", "    je " ++ endL] }
    let st := genStmts { st with breakTargets := endL :: st.breakTargets } body
    let st := { st with breakTargets := st.breakTargets.tail }
    { st with text := st.text ++ incCode ++
      ["    jmp " ++ condL, endL ++ ":"] }
  | .foreach_stmt setupCode condPre loadCode incCode body =>
    let n := st.labelCount + 1
    let condL := ".Lforeach_cond_" ++ toString n
    let endL := ".Lforeach_end_" ++ toString n
    let st := { st with labelCount := n }
    let st := { st with text := st.text ++ setupCode ++ [condL ++ ":"] ++
      condPre ++ ["    jge " ++ endL] ++ loadCode }
    let st := genStmts { st with breakTargets := endL :: st.breakTargets } body
    let st := { st with breakTargets := st.breakTargets.tail }
    { st with text := st.text ++ incCode ++
      ["    jmp " ++ condL, endL ++ ":"] }
  | .switch_stmt condCode cases dflt =>
    let n := st.labelCount + 1
    let endL := ".Lswitch_end_" ++ toString n
    let st := { st with labelCount := n }
    let st := { st with text := st.text ++ condCode ++
      (cases.enum.map (fun (p : Nat × (String × List CStmt)) =>
        ["    cmp $" ++ p.2.1 ++ ", %rax",
         "    je .Lcase_" ++ toString n ++ "_" ++ toString p.1])).flatten ++
      [(if dflt.isSome then "    jmp .Ldefault_" ++ toString n
        else "    jmp " ++ endL)] }
    let st := genSwitchCases
      { st with breakTargets := endL :: st.breakTargets } n 0 cases
    let st :=
      match dflt with
      | none => st
      | some body =>
        genStmts { st with
          text := st.text ++ [".Ldefault_" ++ toString n ++ ":"] } body
    let st := { st with breakTargets := st.breakTargets.tail }
    { st with text := st.text ++ [endL ++ ":"] }

/-- The `for stmt in body: self.gen_stmt(stmt)` loops. -/
def genStmts (st : GenSt) : List CStmt → GenSt
  | [] => st
  | s :: rest => genStmts (genStmt st s) rest

/-- The case-body emission loop of the switch branch (codegen.py lines
1036-1041). -/
def genSwitchCases (st : GenSt) (n i : Nat) :
    List (String × List CStmt) → GenSt
  | [] => st
  | (_, body) :: rest =>
    let st := { st with
      text := st.text ++ [".Lcase_" ++ toString n ++ "_" ++ toString i ++ ":"] }
    let st := genStmts st body
    genSwitchCases st n (i + 1) rest

end

/-- The state at the start of a function body: prologue and parameter
binding emitted, `self.func_has_return = False` (codegen.py lines
503-515). -/
def genFuncInit (name : String) (paramCode : List String) : GenSt :=
  ⟨[".global " ++ name, ".type " ++ name ++ ", @function", name ++ ":",
    "    push %rbp", "    mov %rsp, %rbp", "    sub $512, %rsp"] ++
    paramCode, false, 0, []⟩

/-- `CodeGen.gen_func` (codegen.py lines 503-608): body walk, then the
trailing epilogue only when `self.func_has_return` is still false. -/
def gen_func_text (name : String) (paramCode : List String)
    (body : List CStmt) : List String :=
  let st := genStmts (genFuncInit name paramCode) body
  if st.hasReturn then st.text
  else st.text ++ (if name == "main" then ["    mov $0, %eax"] else []) ++
    ["    leave", "    ret"]

mutual

/-- Modelled from the spec: whether a statement contains a `return`
anywhere. -/
def stmtHasRet : CStmt → Bool
  | .expr_stmt _ => false
  | .var_decl _ => false
  | .return_stmt _ => true
  | .break_stmt => false
  | .if_stmt _ body elseBody =>
    stmtsHaveRet body ||
      (match elseBody with
       | none => false
       | some els => stmtsHaveRet els)
  | .while_stmt _ body => stmtsHaveRet body
  | .do_while_stmt body _ => stmtsHaveRet body
  | .for_stmt init _ _ body => stmtHasRet init || stmtsHaveRet body
  | .foreach_stmt _ _ _ _ body => stmtsHaveRet body
  | .switch_stmt _ cases dflt =>
    casesHaveRet cases ||
      (match dflt with
       | none => false
       | some body => stmtsHaveRet body)

/-- Modelled from the spec: whether a statement list contains a `return`. -/
def stmtsHaveRet : List CStmt → Bool
  | [] => false
  | s :: rest => stmtHasRet s || stmtsHaveRet rest

/-- Modelled from the spec: whether any switch case body contains a
`return`. -/
def casesHaveRet : List (String × List CStmt) → Bool
  | [] => false
  | (_, body) :: rest => stmtsHaveRet body || casesHaveRet rest

end

/-! ## Code generator: array push (codegen.py lines 1663-1774, C3)

The primitive-element `push` path for a local array.  The emitted
instruction stream is modelled with an instruction type whose constructors
stand for exactly the instruction forms the push emission uses, and a small
machine giving their x86 meaning over the array's three fields. -/

inductive AReg : Type
  | rax | rcx | rsi | rdi | r10 | r11
deriving DecidableEq

inductive AFld : Type
  | dataF | lenF | capF
deriving DecidableEq

/-- Machine state: the array header fields the `arr_ref` accesses read and
write, the registers the push emission uses, the flags as the operand pair
of the last `cmp`, the stack, and logs of the heap stores and `realloc`
calls performed. -/
structure ASt : Type where
  data : Nat
  len : Nat
  cap : Nat
  rax : Nat
  rcx : Nat
  rsi : Nat
  rdi : Nat
  r10 : Nat
  r11 : Nat
  cmpDst : Nat
  cmpSrc : Nat
  stack : List Nat
  stores : List (Nat × Nat)
  reallocs : List (Nat × Nat)

def ASt.getReg (st : ASt) : AReg → Nat
  | .rax => st.rax
  | .rcx => st.rcx
  | .rsi => st.rsi
  | .rdi => st.rdi
  | .r10 => st.r10
  | .r11 => st.r11

def ASt.setReg (st : ASt) (r : AReg) (v : Nat) : ASt :=
  match r with
  | .rax => { st with rax := v }
  | .rcx => { st with rcx := v }
  | .rsi => { st with rsi := v }
  | .rdi => { st with rdi := v }
  | .r10 => { st with r10 := v }
  | .r11 => { st with r11 := v }

def ASt.getFld (st : ASt) : AFld → Nat
  | .dataF => st.data
  | .lenF => st.len
  | .capF => st.cap

def ASt.setFld (st : ASt) (f : AFld) (v : Nat) : ASt :=
  match f with
  | .dataF => { st with data := v }
  | .lenF => { st with len := v }
  | .capF => { st with cap := v }

/-- The instruction forms used by the push emission.  `AT&T` operand
order: `cmpFldReg f r` is `cmp arr_ref(f), %r` (destination `%r`),
`addRegReg src dst` is `add %src, %dst`. -/
inductive AInstr : Type
  | pushReg (r : AReg)
  | popReg (r : AReg)
  | movFldReg (f : AFld) (r : AReg)
  | movRegFld (r : AReg) (f : AFld)
  | movImmReg (n : Nat) (r : AReg)
  | cmpFldReg (f : AFld) (r : AReg)
  | cmpImmReg (n : Nat) (r : AReg)
  | shlOne (r : AReg)
  | imulImm (n : Nat) (r : AReg)
  | addRegReg (src dst : AReg)
  | xchgRegReg (a b : AReg)
  | callRealloc
  | storeRegAtRcx (r : AReg) (size : Nat)
  | incqFld (f : AFld)
  | jl (target : Nat)
  | jge (target : Nat)
  | lbl (l : Nat)

/-- The value actually written by the width-selected store
(`mov %al/%ax/%eax/%rax, (%rcx)`, codegen.py lines 1764-1771). -/
def maskVal (size v : Nat) : Nat :=
  if size = 1 ∨ size = 2 ∨ size = 4 then v % 2 ^ (8 * size) else v

/-- Effect of one non-jump instruction.  `reallocF old_ptr size` is the
pointer the C `realloc` returns. -/
def stepA (reallocF : Nat → Nat → Nat) (st : ASt) : AInstr → ASt
  | .pushReg r => { st with stack := st.getReg r :: st.stack }
  | .popReg r =>
    let v := st.stack.headD 0
    { st.setReg r v with stack := st.stack.tail }
  | .movFldReg f r => st.setReg r (st.getFld f)
  | .movRegFld r f => st.setFld f (st.getReg r)
  | .movImmReg n r => st.setReg r n
  | .cmpFldReg f r => { st with cmpDst := st.getReg r, cmpSrc := st.getFld f }
  | .cmpImmReg n r => { st with cmpDst := st.getReg r, cmpSrc := n }
  | .shlOne r => st.setReg r (st.getReg r * 2)
  | .imulImm n r => st.setReg r (st.getReg r * n)
  | .addRegReg src dst => st.setReg dst (st.getReg dst + st.getReg src)
  | .xchgRegReg a b =>
    let va := st.getReg a
    (st.setReg a (st.getReg b)).setReg b va
  | .callRealloc =>
    { st.setReg .rax (reallocF st.rdi st.rsi) with
      reallocs := st.reallocs ++ [(st.rdi, st.rsi)] }
  | .storeRegAtRcx r size =>
    { st with stores := st.stores ++ [(st.rcx, maskVal size (st.getReg r))] }
  | .incqFld f => st.setFld f (st.getFld f + 1)
  | .jl _ => st
  | .jge _ => st
  | .lbl _ => st

/-- Skip forward to just after the label `l` (the push emission only uses
forward jumps). -/
def skipToLbl (l : Nat) : List AInstr → List AInstr
  | [] => []
  | .lbl l' :: rest => if l' = l then rest else skipToLbl l rest
  | _ :: rest => skipToLbl l rest

/-- Run the instruction list.  `jl` jumps when the last `cmp`'s
destination was below its source, `jge` when it was at least the source.
Every step continues on a strictly shorter suffix (a forward jump lands
inside the remainder), so the run terminates. -/
def runA (reallocF : Nat → Nat → Nat) : ASt → List AInstr → ASt
  | st, [] => st
  | st, i :: rest =>
    match i with
    | .jl t =>
      if st.cmpDst < st.cmpSrc then runA reallocF st (skipToLbl t rest)
      else runA reallocF st rest
    | .jge t =>
      if st.cmpSrc ≤ st.cmpDst then runA reallocF st (skipToLbl t rest)
      else runA reallocF st rest
    | _ => runA reallocF (stepA reallocF st i) rest
termination_by _ l => l.length
decreasing_by
  all_goals
    first
    | (simp only [List.length_cons]
       have hskip : ∀ (t : Nat) (l : List AInstr),
           (skipToLbl t l).length ≤ l.length := by
         intro t l
         induction l with
         | nil => simp [skipToLbl]
         | cons i rest ih =>
           cases i <;> simp [skipToLbl] <;>
             first
             | (split <;> omega)
             | omega
       have := hskip t rest
       omega)
    | (simp only [List.length_cons]; omega)

/-- The primitive-element local-array push emission (codegen.py lines
1708-1773), after the pushed value has been evaluated into `%rax`.
`skipL` and `capOkL` stand for the fresh labels `.Lskip_grow_N` and
`.Lcap_ok_M` (always distinct: the counter is bumped between them).  The
four instructions appended and then removed again by the `self.text.pop()`
calls at lines 1730-1735 are reproduced with `List.dropLast`. -/
def gen_push_prim (elemSz skipL capOkL : Nat) : List AInstr :=
  ((([.pushReg .rax,
     .movFldReg .lenF .r10,
     .cmpFldReg .capF .r10,
     .jl skipL,
     .movFldReg .capF .rdi,
     .shlOne .rdi,
     .cmpImmReg 4 .rdi,
     .jge capOkL,
     .movImmReg 4 .rdi,
     .lbl capOkL,
     .movRegFld .rdi .capF,
     .imulImm elemSz .rdi] : List AInstr) ++
    ([.movFldReg .dataF .rsi,
     .xchgRegReg .rdi .rsi,
     .movFldReg .dataF .rsi,
     .xchgRegReg .rdi .rsi] : List AInstr)).dropLast.dropLast.dropLast.dropLast) ++
  ([.movFldReg .dataF .rdi,
   .movFldReg .capF .rsi,
   .imulImm elemSz .rsi,
   .callRealloc,
   .movRegFld .rax .dataF,
   .lbl skipL,
   .popReg .rax,
   .movFldReg .dataF .rcx,
   .movFldReg .lenF .r10,
   .imulImm elemSz .r10,
   .addRegReg .r10 .rcx,
   .storeRegAtRcx .rax elemSz,
   .incqFld .lenF] : List AInstr)

/-- Run one push on a machine state. -/
def run_push (reallocF : Nat → Nat → Nat) (elemSz skipL capOkL : Nat)
    (st : ASt) : ASt :=
  runA reallocF st (gen_push_prim elemSz skipL capOkL)

/-- The all-zero machine state of a freshly declared empty array
(codegen.py lines 631-636 zero the three header fields). -/
def emptyASt : ASt :=
  ⟨0, 0, 0, 0, 0, 0, 0, 0, 0, 0, 0, [], [], []⟩

/-- The state after `k` pushes starting from an empty array. -/
def pushIter (reallocF : Nat → Nat → Nat) (elemSz skipL capOkL : Nat) :
    Nat → ASt
  | 0 => emptyASt
  | k + 1 => run_push reallocF elemSz skipL capOkL
      (pushIter reallocF elemSz skipL capOkL k)

/-! ## Spec-side destination-type descriptions (C2) -/

/-- The integer destination types the range-check claim enumerates:
`int` (64 bits), `char` (8 bits) and `int<N>` with `N` given by its digit
string. -/
inductive IntDest : Type
  | i64
  | ch
  | iN (digits : String)

/-- The base type string of a destination. -/
def destBase : IntDest → String
  | .i64 => "int"
  | .ch => "char"
  | .iN s => "int<" ++ s ++ ">"

/-- The destination type string with an optional sign prefix:
`none` for no prefix, `some true` for `unsigned `, `some false` for
`signed `. -/
def destStr (sgn : Option Bool) (d : IntDest) : String :=
  (match sgn with
   | none => ""
   | some true => "unsigned "
   | some false => "signed ") ++ destBase d

/-- The bit width of a destination (`none` when the digit string does not
parse). -/
def destBits : IntDest → Option Nat
  | .i64 => some 64
  | .ch => some 8
  | .iN s => pyToNat? s

/-- Whether the sign prefix selects the unsigned range. -/
def sgnIsUnsigned : Option Bool → Bool
  | some true => true
  | _ => false

/-- Modelled from the spec: the accepted literal range,
`signed: [-2^(N-1), 2^(N-1)-1]`, `unsigned: [0, 2^N-1]`. -/
def specInRange (unsigned : Bool) (bits : Nat) (v : Int) : Prop :=
  if unsigned then 0 ≤ v ∧ v ≤ (2 ^ bits : Int) - 1
  else -(2 ^ (bits - 1) : Int) ≤ v ∧ v ≤ (2 ^ (bits - 1) : Int) - 1

/-! # Theorems -/

/-- C1: the lexer has no keyword token kinds for `foreach`, `switch`,
`case`, `default`, `break`, `type`, `macro`, `const`, `fnct` or `in`: each
of these words lexes as a generic `ID` token, the `token_specification`
list contains no entry for any of them, and a `case 1:` fragment does not
even lex (the bare `:` matches only `MISMATCH`, a hard error).  The
parser's statement rules dispatch on the token kinds `FOREACH`, `SWITCH`,
`CASE`, `DEFAULT`, `BREAK`, `TYPE`, `MACRO`, `CONST`, `FNCT` and `IN`
(parser.py lines 30-34, 119, 201, 345-410, 541), which the lexer never
produces, so those rules are unreachable. -/
theorem C1_lexer_missing_keywords :
    lexKinds "foreach" = .ok ["ID", "EOF"] ∧
    lexKinds "switch" = .ok ["ID", "EOF"] ∧
    lexKinds "case" = .ok ["ID", "EOF"] ∧
    lexKinds "default" = .ok ["ID", "EOF"] ∧
    lexKinds "break" = .ok ["ID", "EOF"] ∧
    lexKinds "type" = .ok ["ID", "EOF"] ∧
    lexKinds "macro" = .ok ["ID", "EOF"] ∧
    lexKinds "const" = .ok ["ID", "EOF"] ∧
    lexKinds "fnct" = .ok ["ID", "EOF"] ∧
    lexKinds "in" = .ok ["ID", "EOF"] ∧
    lexKinds "case 1:" = .error "unexpected character on line 1" ∧
    (token_specification.map Prod.fst).contains "FOREACH" = false ∧
    (token_specification.map Prod.fst).contains "SWITCH" = false ∧
    (token_specification.map Prod.fst).contains "CASE" = false ∧
    (token_specification.map Prod.fst).contains "DEFAULT" = false ∧
    (token_specification.map Prod.fst).contains "BREAK" = false ∧
    (token_specification.map Prod.fst).contains "TYPE" = false ∧
    (token_specification.map Prod.fst).contains "MACRO" = false ∧
    (token_specification.map Prod.fst).contains "CONST" = false ∧
    (token_specification.map Prod.fst).contains "FNCT" = false ∧
    (token_specification.map Prod.fst).contains "IN" = false := by
  refine ⟨rfl, rfl, rfl, rfl, rfl, rfl, rfl, rfl, rfl, rfl, rfl,
    ?_, ?_, ?_, ?_, ?_, ?_, ?_, ?_, ?_, ?_⟩ <;> rfl

/-- C7: the declaration pre-pass records a redeclaration error for
duplicate functions (`E010`), type aliases and globals (`E015`), but a
second `struct` or `enum` declaration with the same name records no error
at all and silently overwrites the first (analyzer.py lines 790-793 have
no membership check, although the analyzer's own error table defines E007
"Structure Redeclaration"). -/
theorem C7_duplicate_structs_not_reported :
    (scan_declarations
      [.struct_decl "S" [("int", "x")], .struct_decl "S" []]).errors = [] ∧
    (scan_declarations
      [.struct_decl "S" [("int", "x")], .struct_decl "S" []]).structs =
      [("S", [])] ∧
    (scan_declarations [.enum_decl "E" ["A"], .enum_decl "E" []]).errors =
      [] ∧
    (scan_declarations [.enum_decl "E" ["A"], .enum_decl "E" []]).enums =
      [("E", [])] ∧
    (scan_declarations
      [.func "f" "int" 0, .func "f" "int" 0]).errors = ["E010"] ∧
    (scan_declarations
      [.type_decl "T" ["int"], .type_decl "T" ["int"]]).errors = ["E015"] ∧
    (scan_declarations
      [.pub_var "g" "int", .pub_var "g" "int"]).errors = ["E015"] ∧
    (scan_declarations [.ext "e" "int" 0 false, .ext "e" "int" 0 false]).errors
      = [] := by
  refine ⟨rfl, rfl, rfl, rfl, rfl, rfl, rfl, rfl⟩

/-- C10: a direct call to a `namespace_access` target `stem::f` is emitted
as `call f@PLT` using only the unqualified name, while the included
function itself is defined under the label `stem::f` with the `::` left
unmangled (only globals go through `mangle`, which rewrites `::` to `_`);
the called symbol therefore never equals the defined label's symbol. -/
theorem C10_namespaced_call_label_mismatch (stem f : String) :
    gen_call_line (call_target_names stem f).2 =
      "    call " ++ f ++ "@PLT" ∧
    gen_func_header (include_namespace stem f) =
      [".global " ++ (stem ++ "::" ++ f),
       ".type " ++ (stem ++ "::" ++ f) ++ ", @function",
       (stem ++ "::" ++ f) ++ ":"] ∧
    (call_target_names stem f).2 ≠ include_namespace stem f ∧
    mangle (include_namespace "std" "counter") = "std_counter" := by
  refine ⟨rfl, rfl, ?_, rfl⟩
  intro h
  have hlen := congrArg String.length h
  simp only [call_target_names, include_namespace, String.length_append] at hlen
  have h2 : ("::" : String).length = 2 := rfl
  omega

/-- C5 counterexample: `_types_compatible` does not strip `const`; a
`const int` target rejects a plain `int` source, contradicting the claim's
"a `const int` target accepts a plain `int` source". -/
theorem C5_const_not_stripped :
    types_compatible [] 1 "const int" "int" = false := by rfl

/-- C5 (amended): for targets and sources that are not declared union
aliases, `_types_compatible` holds iff the two types are equal after the
normalization `int ≡ int<64>`, `float ≡ float<64>`; no `const` prefix is
stripped. -/
theorem C5_compat_is_normalized_equality (types : TypeEnv) (fuel : Nat)
    (target source : String)
    (ht : dictGet? types target = none)
    (hs : dictGet? types source = none) :
    types_compatible types fuel target source =
      (normalize_type target == normalize_type source) := by
  unfold types_compatible
  rw [ht, hs]
  rfl

/-- C5 witness: the amended statement applied to the concrete pair
`int` / `int<64>`, which normalizes to equality. -/
theorem C5_compat_witness :
    types_compatible [] 0 "int" "int<64>" = true := by
  have h := C5_compat_is_normalized_equality [] 0 "int" "int<64>" rfl rfl
  rw [h]; rfl

/-- The padding step on a decomposed cursor `align * q + r`. -/
theorem padTo_eq_aux (align q r : Nat) (h : 0 < align) (hr : r < align) :
    padTo (align * q + r) align = leastMultipleGE align (align * q + r) := by
  have hmod : (align * q + r) % align = r := by
    rw [Nat.mul_add_mod]; exact Nat.mod_eq_of_lt hr
  unfold padTo leastMultipleGE
  rw [hmod]
  by_cases hz : r = 0
  · subst hz
    simp only [ne_eq, not_true_eq_false, if_false]
    have h1 : align * q + 0 + align - 1 = align * q + (align - 1) := by omega
    rw [h1, Nat.mul_add_div h, Nat.div_eq_of_lt (by omega), Nat.add_zero,
      Nat.add_zero]
  · simp only [ne_eq, hz, not_false_eq_true, if_true]
    have h1 : align * q + r + (align - r) = align * (q + 1) := by
      rw [Nat.mul_succ]; omega
    have h2 : align * q + r + align - 1 = align * (q + 1) + (r - 1) := by
      rw [Nat.mul_succ]; omega
    rw [h1, h2, Nat.mul_add_div h, Nat.div_eq_of_lt (by omega), Nat.add_zero]

/-- The padding step computes the least multiple of `align` at or past the
cursor, for positive alignment. -/
theorem padTo_eq_leastMultipleGE (align offset : Nat) (h : 0 < align) :
    padTo offset align = leastMultipleGE align offset := by
  have h2 := padTo_eq_aux align (offset / align) (offset % align) h
    (Nat.mod_lt _ h)
  rwa [Nat.div_add_mod] at h2

/-- The two layout folds agree when every field size is positive. -/
theorem layoutFields_eq_spec (S : String → Nat)
    (fields : List (String × String))
    (h : ∀ p ∈ fields, 0 < S p.1) (offset : Nat) :
    layoutFields S fields offset = spec_layoutFields S fields offset := by
  induction fields generalizing offset with
  | nil => rfl
  | cons p rest ih =>
    obtain ⟨fty, fname⟩ := p
    have hpos : 0 < S fty := h (fty, fname) (List.mem_cons_self _ _)
    have halign : (if S fty < 8 then S fty else 8) = min (S fty) 8 := by
      rcases Nat.lt_or_ge (S fty) 8 with hlt | hge
      · simp [hlt, Nat.min_eq_left (Nat.le_of_lt hlt)]
      · simp [Nat.not_lt.mpr hge, Nat.min_eq_right hge]
    have hminpos : 0 < min (S fty) 8 := by
      rcases Nat.lt_or_ge (S fty) 8 with hlt | hge <;> omega
    simp only [layoutFields, spec_layoutFields, halign,
      padTo_eq_leastMultipleGE _ _ hminpos,
      ih (fun q hq => h q (List.mem_cons_of_mem _ hq))]

/-- C4: for every struct declaration whose field sizes are positive, the
computed layout places each field, in declaration order, at the smallest
multiple of `min(sizeof(field type), 8)` at or past the running cursor,
and the total size is the final cursor rounded up to a multiple of 8
(hence itself a multiple of 8).  The layout loop is parameterised by the
size function `S` standing for `self.sizeof`. -/
theorem C4_struct_layout (S : String → Nat)
    (fields : List (String × String))
    (h : ∀ p ∈ fields, 0 < S p.1) :
    struct_layout S fields = spec_struct_layout S fields ∧
    (struct_layout S fields).2 % 8 = 0 := by
  have heq : layoutFields S fields 0 = spec_layoutFields S fields 0 :=
    layoutFields_eq_spec S fields h 0
  constructor
  · unfold struct_layout spec_struct_layout
    rw [heq]
    rcases spec_layoutFields S fields 0 with ⟨info, offset⟩
    simp only [padTo_eq_leastMultipleGE _ _ (show 0 < 8 by omega)]
  · unfold struct_layout
    rw [heq]
    rcases spec_layoutFields S fields 0 with ⟨info, offset⟩
    simp only [padTo]
    by_cases hz : offset % 8 = 0 <;> simp [hz] <;> omega

/-- C4 witness: the layout of `struct { char c; int x; }` with the real
sizes of `char` and `int`: offsets 0 and 8, total size 16. -/
theorem C4_struct_layout_witness :
    struct_layout (fun t => if t == "char" then 1 else 8)
        [("char", "c"), ("int", "x")] =
      spec_struct_layout (fun t => if t == "char" then 1 else 8)
        [("char", "c"), ("int", "x")] ∧
    (struct_layout (fun t => if t == "char" then 1 else 8)
        [("char", "c"), ("int", "x")]).2 % 8 = 0 ∧
    struct_layout (fun t => if t == "char" then 1 else 8)
        [("char", "c"), ("int", "x")] =
      ([("c", 0, "char"), ("x", 8, "int")], 16) := by
  have h := C4_struct_layout (fun t => if t == "char" then 1 else 8)
    [("char", "c"), ("int", "x")] (by decide)
  exact ⟨h.1, h.2, rfl⟩

/-- Transitivity of the code-point order. -/
theorem pyLeList_trans : ∀ a b c : List Char,
    pyLeList a b = true → pyLeList b c = true → pyLeList a c = true := by
  intro a
  induction a with
  | nil => intro b c _ _; rfl
  | cons x xs ih =>
    intro b c hab hbc
    cases b with
    | nil => simp [pyLeList] at hab
    | cons y ys =>
      cases c with
      | nil => simp [pyLeList] at hbc
      | cons z zs =>
        simp only [pyLeList, Bool.or_eq_true, Bool.and_eq_true,
          decide_eq_true_eq] at hab hbc ⊢
        rcases hab with h1 | ⟨h1, h1'⟩ <;> rcases hbc with h2 | ⟨h2, h2'⟩
        · exact Or.inl (by omega)
        · exact Or.inl (by omega)
        · exact Or.inl (by omega)
        · exact Or.inr ⟨by omega, ih ys zs h1' h2'⟩

/-- Totality of the code-point order. -/
theorem pyLeList_total : ∀ a b : List Char,
    pyLeList a b = true ∨ pyLeList b a = true := by
  intro a
  induction a with
  | nil => intro b; exact Or.inl rfl
  | cons x xs ih =>
    intro b
    cases b with
    | nil => exact Or.inr rfl
    | cons y ys =>
      simp only [pyLeList, Bool.or_eq_true, Bool.and_eq_true,
        decide_eq_true_eq]
      rcases Nat.lt_trichotomy x.toNat y.toNat with h | h | h
      · exact Or.inl (Or.inl h)
      · rcases ih ys with h' | h'
        · exact Or.inl (Or.inr ⟨h, h'⟩)
        · exact Or.inr (Or.inr ⟨h.symm, h'⟩)
      · exact Or.inr (Or.inl h)

/-- C6: the analyzer's final reporting step takes the exit-1 path iff at
least one error was recorded (otherwise `analyze` returns normally), and
the printed list carries each distinct recorded error message exactly
once, in sorted order, even when an error was recorded multiple times. -/
theorem C6_error_reporting (errors : List String) :
    ((analyze_finalize errors).isSome ↔ errors ≠ []) ∧
    (∀ printed, analyze_finalize errors = some printed →
      printed.Nodup ∧
      List.Sorted pyStrLeP printed ∧
      (∀ e, e ∈ printed ↔ e ∈ errors) ∧
      (∀ e, e ∈ errors → printed.count e = 1)) := by
  constructor
  · cases errors with
    | nil => simp [analyze_finalize]
    | cons e es => simp [analyze_finalize]
  · intro printed hp
    cases errors with
    | nil => simp [analyze_finalize] at hp
    | cons e es =>
      simp only [analyze_finalize, List.isEmpty_cons, if_false,
        Option.some.injEq, Bool.false_eq_true] at hp
      subst hp
      have hperm : List.Perm (pySorted (e :: es).dedup) (e :: es).dedup :=
        List.perm_insertionSort _ _
      have hnodup : (pySorted (e :: es).dedup).Nodup :=
        hperm.symm.nodup (List.nodup_dedup (e :: es))
      have hsorted : List.Sorted pyStrLeP (pySorted (e :: es).dedup) := by
        unfold pySorted
        exact @List.sorted_insertionSort _ pyStrLeP _
          ⟨fun a b => pyLeList_total a.data b.data⟩
          ⟨fun a b c => pyLeList_trans a.data b.data c.data⟩
          (e :: es).dedup
      refine ⟨hnodup, hsorted, ?_, ?_⟩
      · intro x
        rw [hperm.mem_iff, List.mem_dedup]
      · intro x hx
        exact List.count_eq_one_of_mem hnodup
          (hperm.mem_iff.mpr (List.mem_dedup.mpr hx))

/-- C6 witness: the reporting step on the recorded error list
`["b", "a", "b"]`: it exits, printing the two distinct messages sorted. -/
theorem C6_error_reporting_witness :
    (analyze_finalize ["b", "a", "b"]).isSome = true ∧
    analyze_finalize ["b", "a", "b"] = some ["a", "b"] ∧
    (["a", "b"] : List String).Nodup := by
  have h := C6_error_reporting ["b", "a", "b"]
  refine ⟨rfl, rfl, (h.2 ["a", "b"] rfl).1⟩

mutual

/-- The `func_has_return` flag after one statement: set iff it was set
before or the statement contains a `return` anywhere. -/
theorem genStmt_hasReturn (st : GenSt) (s : CStmt) :
    (genStmt st s).hasReturn = (st.hasReturn || stmtHasRet s) := by
  cases s with
  | expr_stmt code => simp [genStmt, stmtHasRet]
  | var_decl code => simp [genStmt, stmtHasRet]
  | return_stmt code => simp [genStmt, stmtHasRet]
  | break_stmt =>
    cases hb : st.breakTargets with
    | nil => simp [genStmt, stmtHasRet, hb]
    | cons t rest => simp [genStmt, stmtHasRet, hb]
  | if_stmt condCode body elseBody =>
    cases elseBody with
    | none =>
      simp [genStmt, stmtHasRet, genStmts_hasReturn]
    | some els =>
      simp [genStmt, stmtHasRet, genStmts_hasReturn, Bool.or_assoc]
  | while_stmt condCode body =>
    simp [genStmt, stmtHasRet, genStmts_hasReturn]
  | do_while_stmt body condCode =>
    simp [genStmt, stmtHasRet, genStmts_hasReturn]
  | for_stmt init condCode incCode body =>
    simp [genStmt, stmtHasRet, genStmts_hasReturn, genStmt_hasReturn,
      Bool.or_assoc]
  | foreach_stmt setupCode condPre loadCode incCode body =>
    simp [genStmt, stmtHasRet, genStmts_hasReturn]
  | switch_stmt condCode cases dflt =>
    cases dflt with
    | none =>
      simp [genStmt, stmtHasRet, genSwitchCases_hasReturn]
    | some body =>
      simp [genStmt, stmtHasRet, genSwitchCases_hasReturn,
        genStmts_hasReturn, Bool.or_assoc]

/-- The flag after a statement list. -/
theorem genStmts_hasReturn (st : GenSt) (l : List CStmt) :
    (genStmts st l).hasReturn = (st.hasReturn || stmtsHaveRet l) := by
  cases l with
  | nil => simp [genStmts, stmtsHaveRet]
  | cons s rest =>
    simp [genStmts, stmtsHaveRet, genStmts_hasReturn, genStmt_hasReturn,
      Bool.or_assoc]

/-- The flag after the switch case bodies. -/
theorem genSwitchCases_hasReturn (st : GenSt) (n i : Nat)
    (cases : List (String × List CStmt)) :
    (genSwitchCases st n i cases).hasReturn =
      (st.hasReturn || casesHaveRet cases) := by
  cases cases with
  | nil => simp [genSwitchCases, casesHaveRet]
  | cons c rest =>
    obtain ⟨cv, body⟩ := c
    simp [genSwitchCases, casesHaveRet, genSwitchCases_hasReturn,
      genStmts_hasReturn, Bool.or_assoc]

end

/-- C9: `gen_func` appends the trailing epilogue (`leave; ret`, preceded
by `mov $0, %eax` for `main`) exactly when the body generated zero return
statements; when the body contains a return anywhere — even one nested in
a conditional branch, so execution can still fall past the end of the
body — no trailing epilogue is appended after the body's code. -/
theorem C9_epilogue_iff_no_return (name : String) (paramCode : List String)
    (body : List CStmt) :
    gen_func_text name paramCode body =
      (genStmts (genFuncInit name paramCode) body).text ++
        (if stmtsHaveRet body then []
         else (if name == "main" then ["    mov $0, %eax"] else []) ++
           ["    leave", "    ret"]) := by
  simp only [gen_func_text, genStmts_hasReturn]
  have hinit : (genFuncInit name paramCode).hasReturn = false := rfl
  rw [hinit]
  cases h : stmtsHaveRet body <;> simp [h, List.append_assoc]

/-- C9 witness: a function whose only return sits inside an `if` branch
gets no trailing epilogue, while a return-free body gets one. -/
theorem C9_epilogue_witness :
    gen_func_text "f" [] [.if_stmt ["c"] [.return_stmt ["r"]] none] =
      (genStmts (genFuncInit "f" [])
        [.if_stmt ["c"] [.return_stmt ["r"]] none]).text ∧
    gen_func_text "main" [] [.expr_stmt ["e"]] =
      (genStmts (genFuncInit "main" []) [.expr_stmt ["e"]]).text ++
        ["    mov $0, %eax", "    leave", "    ret"] := by
  constructor
  · have h := C9_epilogue_iff_no_return "f" []
      [.if_stmt ["c"] [.return_stmt ["r"]] none]
    rw [h]
    simp [stmtsHaveRet, stmtHasRet]
  · have h := C9_epilogue_iff_no_return "main" [] [.expr_stmt ["e"]]
    rw [h]
    simp [stmtsHaveRet, stmtHasRet]

theorem str_mk_data (s : String) : (⟨s.data⟩ : String) = s := by
  cases s; rfl

theorem intN_data (s : String) :
    ("int<" ++ s ++ ">").data = 'i' :: 'n' :: 't' :: '<' :: (s.data ++ ['>']) := by
  simp [String.data_append]

theorem intN_not_const (s : String) :
    pyStartsWith ("int<" ++ s ++ ">") "const " = false := by
  simp [pyStartsWith, intN_data, List.isPrefixOf]

theorem intN_not_unsigned (s : String) :
    pyStartsWith ("int<" ++ s ++ ">") "unsigned " = false := by
  simp [pyStartsWith, intN_data, List.isPrefixOf]

theorem intN_not_signed (s : String) :
    pyStartsWith ("int<" ++ s ++ ">") "signed " = false := by
  simp [pyStartsWith, intN_data, List.isPrefixOf]

theorem intN_starts_int (s : String) :
    pyStartsWith ("int<" ++ s ++ ">") "int<" = true := by
  simp [pyStartsWith, intN_data, List.isPrefixOf]

theorem intN_ends_gt (s : String) :
    pyEndsWith ("int<" ++ s ++ ">") ">" = true := by
  simp [pyEndsWith, intN_data, List.isSuffixOf, List.reverse_append,
    List.isPrefixOf]

theorem intN_slice (s : String) :
    pySliceToLast ("int<" ++ s ++ ">") 4 = s := by
  simp [pySliceToLast, intN_data, List.dropLast_concat, str_mk_data]

theorem beq_false_of_length_ne (a b : String) (h : a.length ≠ b.length) :
    (a == b) = false := by
  rw [beq_eq_false_iff_ne]
  intro hc; subst hc; exact h rfl

theorem intN_ne_int (s : String) : (("int<" ++ s ++ ">") == "int") = false := by
  apply beq_false_of_length_ne
  have h1 : ("int<" : String).length = 4 := rfl
  have h2 : (">" : String).length = 1 := rfl
  have h3 : ("int" : String).length = 3 := rfl
  simp [String.length_append, h1, h2, h3]
  omega

theorem intN_ne_char (s : String) : (("int<" ++ s ++ ">") == "char") = false := by
  apply beq_false_of_length_ne
  have h1 : ("int<" : String).length = 4 := rfl
  have h2 : (">" : String).length = 1 := rfl
  have h3 : ("char" : String).length = 4 := rfl
  simp [String.length_append, h1, h2, h3]
  omega

theorem prefixed_drop (pre X : String) :
    pyDrop (pre ++ X) pre.data.length = X := by
  simp [pyDrop, String.data_append, List.drop_left, str_mk_data]

theorem drop9_unsigned (X : String) : pyDrop ("unsigned " ++ X) 9 = X :=
  prefixed_drop "unsigned " X

theorem drop7_signed (X : String) : pyDrop ("signed " ++ X) 7 = X :=
  prefixed_drop "signed " X

theorem unsigned_split_rest (X : String) :
    pySplitRest ("unsigned " ++ X) ' ' = X := by
  simp [pySplitRest, String.data_append, List.dropWhile, str_mk_data]

theorem signed_split_rest (X : String) :
    pySplitRest ("signed " ++ X) ' ' = X := by
  simp [pySplitRest, String.data_append, List.dropWhile, str_mk_data]

theorem unsigned_pre_not_const (X : String) :
    pyStartsWith ("unsigned " ++ X) "const " = false := by
  simp [pyStartsWith, String.data_append, List.isPrefixOf]

theorem signed_pre_not_const (X : String) :
    pyStartsWith ("signed " ++ X) "const " = false := by
  simp [pyStartsWith, String.data_append, List.isPrefixOf]

theorem unsigned_pre_starts (X : String) :
    pyStartsWith ("unsigned " ++ X) "unsigned " = true := by
  simp [pyStartsWith, String.data_append, List.isPrefixOf_iff_prefix]

theorem signed_pre_not_unsigned (X : String) :
    pyStartsWith ("signed " ++ X) "unsigned " = false := by
  simp [pyStartsWith, String.data_append, List.isPrefixOf]

theorem signed_pre_starts (X : String) :
    pyStartsWith ("signed " ++ X) "signed " = true := by
  simp [pyStartsWith, String.data_append, List.isPrefixOf_iff_prefix]

theorem unsigned_pre_ne_int (X : String) :
    (("unsigned " ++ X) == "int") = false := by
  apply beq_false_of_length_ne
  have h1 : ("unsigned " : String).length = 9 := rfl
  have h2 : ("int" : String).length = 3 := rfl
  simp [String.length_append, h1, h2]
  omega

theorem unsigned_pre_ne_char (X : String) :
    (("unsigned " ++ X) == "char") = false := by
  apply beq_false_of_length_ne
  have h1 : ("unsigned " : String).length = 9 := rfl
  have h2 : ("char" : String).length = 4 := rfl
  simp [String.length_append, h1, h2]
  omega

theorem signed_pre_ne_int (X : String) :
    (("signed " ++ X) == "int") = false := by
  apply beq_false_of_length_ne
  have h1 : ("signed " : String).length = 7 := rfl
  have h2 : ("int" : String).length = 3 := rfl
  simp [String.length_append, h1, h2]
  omega

theorem signed_pre_ne_char (X : String) :
    (("signed " ++ X) == "char") = false := by
  apply beq_false_of_length_ne
  have h1 : ("signed " : String).length = 7 := rfl
  have h2 : ("char" : String).length = 4 := rfl
  simp [String.length_append, h1, h2]
  omega

theorem empty_append_str (X : String) : "" ++ X = X := by
  cases X; rfl

/-- Outcome of the final range test, as acceptance and error code. -/
theorem ite_range_spec (lo hi v : Int) :
    ((if v < lo ∨ hi < v then (some "E023" : Option String) else none) =
        none ↔ lo ≤ v ∧ v ≤ hi) ∧
    ((if v < lo ∨ hi < v then (some "E023" : Option String) else none) =
        none ∨
     (if v < lo ∨ hi < v then (some "E023" : Option String) else none) =
        some "E023") := by
  by_cases h : v < lo ∨ hi < v
  · rw [if_pos h]
    refine ⟨⟨fun hc => Option.noConfusion hc, fun hr => ?_⟩, Or.inr rfl⟩
    exfalso
    rcases h with h | h <;> omega
  · rw [if_neg h]
    push_neg at h
    exact ⟨⟨fun _ => ⟨h.1, h.2⟩, fun _ => rfl⟩, Or.inl rfl⟩

theorem range_shape_int (v : Int) :
    check_int_literal_range "int" v =
      (if v < -(2 ^ (64 - 1) : Int) ∨ (2 ^ (64 - 1) : Int) - 1 < v then
        some "E023" else none) := rfl

theorem range_shape_char (v : Int) :
    check_int_literal_range "char" v =
      (if v < -(2 ^ (8 - 1) : Int) ∨ (2 ^ (8 - 1) : Int) - 1 < v then
        some "E023" else none) := rfl

theorem range_shape_unsigned_int (v : Int) :
    check_int_literal_range "unsigned int" v =
      (if v < (0 : Int) ∨ (2 ^ 64 : Int) - 1 < v then
        some "E023" else none) := rfl

theorem range_shape_signed_int (v : Int) :
    check_int_literal_range "signed int" v =
      (if v < -(2 ^ (64 - 1) : Int) ∨ (2 ^ (64 - 1) : Int) - 1 < v then
        some "E023" else none) := rfl

theorem range_shape_unsigned_char (v : Int) :
    check_int_literal_range "unsigned char" v =
      (if v < (0 : Int) ∨ (2 ^ 8 : Int) - 1 < v then
        some "E023" else none) := rfl

theorem range_shape_signed_char (v : Int) :
    check_int_literal_range "signed char" v =
      (if v < -(2 ^ (8 - 1) : Int) ∨ (2 ^ (8 - 1) : Int) - 1 < v then
        some "E023" else none) := rfl

theorem range_shape_intN (s : String) (N : Nat) (hs : pyToNat? s = some N)
    (v : Int) :
    check_int_literal_range ("int<" ++ s ++ ">") v =
      (if v < -(2 ^ (N - 1) : Int) ∨ (2 ^ (N - 1) : Int) - 1 < v then
        some "E023" else none) := by
  simp only [check_int_literal_range, intN_not_unsigned, intN_not_signed,
    intN_ne_int, intN_ne_char, intN_starts_int, intN_ends_gt, intN_slice, hs,
    Bool.false_eq_true, if_false, if_true, Bool.and_self, Bool.true_and]

theorem range_shape_unsigned_intN (s : String) (N : Nat)
    (hs : pyToNat? s = some N) (v : Int) :
    check_int_literal_range ("unsigned " ++ ("int<" ++ s ++ ">")) v =
      (if v < (0 : Int) ∨ (2 ^ N : Int) - 1 < v then
        some "E023" else none) := by
  simp only [check_int_literal_range, unsigned_pre_starts,
    drop9_unsigned, unsigned_pre_ne_int, unsigned_pre_ne_char,
    intN_ne_int, intN_ne_char, intN_starts_int, intN_ends_gt, intN_slice, hs,
    Bool.false_eq_true, if_false, if_true, Bool.and_self, Bool.true_and]

theorem range_shape_signed_intN (s : String) (N : Nat)
    (hs : pyToNat? s = some N) (v : Int) :
    check_int_literal_range ("signed " ++ ("int<" ++ s ++ ">")) v =
      (if v < -(2 ^ (N - 1) : Int) ∨ (2 ^ (N - 1) : Int) - 1 < v then
        some "E023" else none) := by
  simp only [check_int_literal_range, signed_pre_not_unsigned,
    signed_pre_starts, drop7_signed, signed_pre_ne_int,
    signed_pre_ne_char, intN_ne_int, intN_ne_char, intN_starts_int,
    intN_ends_gt, intN_slice, hs, Bool.false_eq_true, if_false, if_true,
    Bool.and_self, Bool.true_and]

theorem is_integer_intN (s : String) :
    is_integer_type ("int<" ++ s ++ ">") = true := by
  simp only [is_integer_type, intN_not_const, intN_ne_int, intN_ne_char,
    intN_not_unsigned, intN_not_signed, intN_starts_int, intN_ends_gt,
    Bool.false_eq_true, if_false, if_true, Bool.or_self, Bool.or_false,
    Bool.false_or, Bool.and_self]

theorem is_integer_unsigned_intN (s : String) :
    is_integer_type ("unsigned " ++ ("int<" ++ s ++ ">")) = true := by
  simp only [is_integer_type, unsigned_pre_not_const, unsigned_pre_ne_int,
    unsigned_pre_ne_char, unsigned_pre_starts, unsigned_split_rest,
    intN_ne_int, intN_ne_char, intN_starts_int, Bool.false_eq_true, if_false,
    if_true, Bool.or_self, Bool.or_false, Bool.false_or, Bool.true_or,
    Bool.or_true]

theorem is_integer_signed_intN (s : String) :
    is_integer_type ("signed " ++ ("int<" ++ s ++ ">")) = true := by
  simp only [is_integer_type, signed_pre_not_const, signed_pre_ne_int,
    signed_pre_ne_char, signed_pre_not_unsigned, signed_pre_starts,
    signed_split_rest, intN_ne_int, intN_ne_char, intN_starts_int,
    Bool.false_eq_true, if_false, if_true, Bool.or_self, Bool.or_false,
    Bool.false_or, Bool.true_or, Bool.or_true]

/-- For a non-union integer destination, the checker delegates to the
range check. -/
theorem against_nonunion (types : TypeEnv) (ty : String) (v : Int)
    (hlk : dictGet? types ty = none) (hint : is_integer_type ty = true) :
    check_int_literal_against_type types ty v =
      check_int_literal_range ty v := by
  unfold check_int_literal_against_type
  rw [hlk]
  simp [hint]

theorem any_filter_fits (members : List String) (v : Int) :
    (members.filter is_integer_type).any (fun m => int_literal_fits m v) =
      members.any (fun m => is_integer_type m && int_literal_fits m v) := by
  induction members with
  | nil => rfl
  | cons m rest ih =>
    by_cases h : is_integer_type m = true <;>
      simp [List.filter_cons, h, ih]

/-- C2 counterexample: for a union alias with no integer-kind members the
checker rejects an integer literal with a Type Mismatch error (`E002`),
not the Integer Overflow error the claim names. -/
theorem C2_union_error_counterexample :
    check_int_literal_against_type [("U", ["string"])] "U" 0 = some "E002" ∧
    (["string"].any
      (fun m => is_integer_type m && int_literal_fits m 0)) = false := by
  exact ⟨rfl, rfl⟩

/-- C2 (amended): for every destination of the enumerated integer shapes
(`int` = 64 bits, `char` = 8 bits, `int<N>` = N bits, optionally prefixed
by `unsigned `/`signed `, with positive width) that is not a union alias,
the analyzer accepts a literal `v` iff `v` lies in `[-2^(N-1), 2^(N-1)-1]`
when signed or `[0, 2^N-1]` when unsigned, and any rejection is an Integer
Overflow error (`E023`); for a union-alias destination it accepts iff at
least one integer-kind member's range contains `v`, and otherwise reports
Integer Overflow (`E023`) when the union has at least one integer-kind
member but Type Mismatch (`E002`) when it has none. -/
theorem C2_int_literal_range (types : TypeEnv) (v : Int) :
    (∀ (sgn : Option Bool) (d : IntDest) (N : Nat),
      destBits d = some N → 1 ≤ N →
      dictGet? types (destStr sgn d) = none →
      ((check_int_literal_against_type types (destStr sgn d) v = none) ↔
        specInRange (sgnIsUnsigned sgn) N v) ∧
      (check_int_literal_against_type types (destStr sgn d) v = none ∨
       check_int_literal_against_type types (destStr sgn d) v =
         some "E023")) ∧
    (∀ (u : String) (members : List String),
      dictGet? types u = some members →
      ((check_int_literal_against_type types u v = none) ↔
        members.any (fun m => is_integer_type m && int_literal_fits m v) =
          true) ∧
      (members.any (fun m => is_integer_type m && int_literal_fits m v) =
          false →
        check_int_literal_against_type types u v =
          some (if members.any is_integer_type then "E023" else "E002"))) := by
  constructor
  · intro sgn d N hbits hpos hlk
    rcases sgn with _ | b
    · cases d with
      | i64 =>
        obtain rfl : (64 : Nat) = N := Option.some.inj hbits
        rw [show destStr none .i64 = "int" from rfl] at hlk ⊢
        rw [against_nonunion types "int" v hlk rfl, range_shape_int]
        have h := ite_range_spec (-(2 ^ (64 - 1) : Int))
          ((2 ^ (64 - 1) : Int) - 1) v
        exact ⟨h.1.trans Iff.rfl, h.2⟩
      | ch =>
        obtain rfl : (8 : Nat) = N := Option.some.inj hbits
        rw [show destStr none .ch = "char" from rfl] at hlk ⊢
        rw [against_nonunion types "char" v hlk rfl, range_shape_char]
        have h := ite_range_spec (-(2 ^ (8 - 1) : Int))
          ((2 ^ (8 - 1) : Int) - 1) v
        exact ⟨h.1.trans Iff.rfl, h.2⟩
      | iN s =>
        have hs : pyToNat? s = some N := hbits
        rw [show destStr none (.iN s) = "int<" ++ s ++ ">" from
          empty_append_str _] at hlk ⊢
        rw [against_nonunion types _ v hlk (is_integer_intN s),
          range_shape_intN s N hs]
        have h := ite_range_spec (-(2 ^ (N - 1) : Int))
          ((2 ^ (N - 1) : Int) - 1) v
        exact ⟨h.1.trans Iff.rfl, h.2⟩
    · rcases b with _ | _
      · -- signed prefix
        cases d with
        | i64 =>
          obtain rfl : (64 : Nat) = N := Option.some.inj hbits
          rw [show destStr (some false) .i64 = "signed int" from rfl]
            at hlk ⊢
          rw [against_nonunion types "signed int" v hlk rfl,
            range_shape_signed_int]
          have h := ite_range_spec (-(2 ^ (64 - 1) : Int))
            ((2 ^ (64 - 1) : Int) - 1) v
          exact ⟨h.1.trans Iff.rfl, h.2⟩
        | ch =>
          obtain rfl : (8 : Nat) = N := Option.some.inj hbits
          rw [show destStr (some false) .ch = "signed char" from rfl]
            at hlk ⊢
          rw [against_nonunion types "signed char" v hlk rfl,
            range_shape_signed_char]
          have h := ite_range_spec (-(2 ^ (8 - 1) : Int))
            ((2 ^ (8 - 1) : Int) - 1) v
          exact ⟨h.1.trans Iff.rfl, h.2⟩
        | iN s =>
          have hs : pyToNat? s = some N := hbits
          rw [show destStr (some false) (.iN s) =
            "signed " ++ ("int<" ++ s ++ ">") from rfl] at hlk ⊢
          rw [against_nonunion types _ v hlk (is_integer_signed_intN s),
            range_shape_signed_intN s N hs]
          have h := ite_range_spec (-(2 ^ (N - 1) : Int))
            ((2 ^ (N - 1) : Int) - 1) v
          exact ⟨h.1.trans Iff.rfl, h.2⟩
      · -- unsigned prefix
        cases d with
        | i64 =>
          obtain rfl : (64 : Nat) = N := Option.some.inj hbits
          rw [show destStr (some true) .i64 = "unsigned int" from rfl]
            at hlk ⊢
          rw [against_nonunion types "unsigned int" v hlk rfl,
            range_shape_unsigned_int]
          have h := ite_range_spec (0 : Int) ((2 ^ 64 : Int) - 1) v
          exact ⟨h.1.trans Iff.rfl, h.2⟩
        | ch =>
          obtain rfl : (8 : Nat) = N := Option.some.inj hbits
          rw [show destStr (some true) .ch = "unsigned char" from rfl]
            at hlk ⊢
          rw [against_nonunion types "unsigned char" v hlk rfl,
            range_shape_unsigned_char]
          have h := ite_range_spec (0 : Int) ((2 ^ 8 : Int) - 1) v
          exact ⟨h.1.trans Iff.rfl, h.2⟩
        | iN s =>
          have hs : pyToNat? s = some N := hbits
          rw [show destStr (some true) (.iN s) =
            "unsigned " ++ ("int<" ++ s ++ ">") from rfl] at hlk ⊢
          rw [against_nonunion types _ v hlk (is_integer_unsigned_intN s),
            range_shape_unsigned_intN s N hs]
          have h := ite_range_spec (0 : Int) ((2 ^ N : Int) - 1) v
          exact ⟨h.1.trans Iff.rfl, h.2⟩
  · intro u members hu
    unfold check_int_literal_against_type
    rw [hu]
    by_cases he : (members.filter is_integer_type).isEmpty = true
    · have hnil : members.filter is_integer_type = [] :=
        List.isEmpty_iff.mp he
      have hanyint : members.any is_integer_type = false := by
        rw [List.any_eq_false]
        intro m hm
        intro hc
        have : m ∈ members.filter is_integer_type :=
          List.mem_filter.mpr ⟨hm, hc⟩
        rw [hnil] at this
        exact absurd this (List.not_mem_nil m)
      have hcomb :
          members.any (fun m => is_integer_type m && int_literal_fits m v) =
            false := by
        rw [← any_filter_fits, hnil]; rfl
      simp [he, hanyint, hcomb]
    · have hne : members.filter is_integer_type ≠ [] := by
        intro hc
        rw [hc] at he
        exact he rfl
      obtain ⟨m, hm⟩ := List.exists_mem_of_ne_nil _ hne
      obtain ⟨hmem, hprop⟩ := List.mem_filter.mp hm
      have hanyint : members.any is_integer_type = true :=
        List.any_eq_true.mpr ⟨m, hmem, hprop⟩
      rw [← any_filter_fits]
      cases ha : (members.filter is_integer_type).any
          (fun m => int_literal_fits m v)
      · simp [he, ha, hanyint]
      · simp [he, ha]

/-- C2 witness: the amended statement at concrete inputs: `int<8> = 200`
is rejected with Integer Overflow, and the union `type U { int<8> }`
accepts 5. -/
theorem C2_int_literal_range_witness :
    check_int_literal_against_type [] (destStr none (.iN "8")) 200 =
      some "E023" ∧
    check_int_literal_against_type [("U", ["int<8>"])] "U" 5 = none := by
  constructor
  · have h := (C2_int_literal_range [] 200).1 none (.iN "8") 8 rfl
      (by omega) rfl
    rcases h.2 with hc | hc
    · exfalso
      have h2 := h.1.mp hc
      rw [show sgnIsUnsigned none = false from rfl] at h2
      simp [specInRange] at h2
    · exact hc
  · have h := (C2_int_literal_range [("U", ["int<8>"])] 5).2 "U"
      ["int<8>"] rfl
    exact h.1.mpr (by decide)

/-- The emitted push block after the four appended-then-popped lines are
removed: grow guard, capacity doubling clamped at 4, realloc, store,
length increment. -/
theorem gen_push_prim_eq (elemSz skipL capOkL : Nat) :
    gen_push_prim elemSz skipL capOkL =
      [.pushReg .rax,
       .movFldReg .lenF .r10,
       .cmpFldReg .capF .r10,
       .jl skipL,
       .movFldReg .capF .rdi,
       .shlOne .rdi,
       .cmpImmReg 4 .rdi,
       .jge capOkL,
       .movImmReg 4 .rdi,
       .lbl capOkL,
       .movRegFld .rdi .capF,
       .imulImm elemSz .rdi,
       .movFldReg .dataF .rdi,
       .movFldReg .capF .rsi,
       .imulImm elemSz .rsi,
       .callRealloc,
       .movRegFld .rax .dataF,
       .lbl skipL,
       .popReg .rax,
       .movFldReg .dataF .rcx,
       .movFldReg .lenF .r10,
       .imulImm elemSz .r10,
       .addRegReg .r10 .rcx,
       .storeRegAtRcx .rax elemSz,
       .incqFld .lenF] := rfl

/-- Running one push: the machine grows the array only when the length has
reached the capacity, the new capacity is `max(cap*2, 4)`, `realloc` is
called with the old pointer and `new_cap * elem_size`, the value is stored
at `data + len * elem_size` (`data` being the possibly reallocated
pointer), and the stored length grows by exactly one. -/
theorem run_push_spec (reallocF : Nat → Nat → Nat)
    (elemSz skipL capOkL : Nat) (hL : skipL ≠ capOkL) (st : ASt) :
    (run_push reallocF elemSz skipL capOkL st).len = st.len + 1 ∧
    (run_push reallocF elemSz skipL capOkL st).cap =
      (if st.len < st.cap then st.cap else max (st.cap * 2) 4) ∧
    (run_push reallocF elemSz skipL capOkL st).data =
      (if st.len < st.cap then st.data
       else reallocF st.data (max (st.cap * 2) 4 * elemSz)) ∧
    (run_push reallocF elemSz skipL capOkL st).reallocs =
      (if st.len < st.cap then st.reallocs
       else st.reallocs ++ [(st.data, max (st.cap * 2) 4 * elemSz)]) ∧
    (run_push reallocF elemSz skipL capOkL st).stores =
      st.stores ++
        [((run_push reallocF elemSz skipL capOkL st).data + st.len * elemSz,
          maskVal elemSz st.rax)] := by
  unfold run_push
  rw [gen_push_prim_eq]
  by_cases hlc : st.len < st.cap
  · simp [runA, stepA, skipToLbl, ASt.setReg, ASt.getReg, ASt.setFld,
      ASt.getFld, hlc, Ne.symm hL]
  · by_cases hc4 : 4 ≤ st.cap * 2
    · simp [runA, stepA, skipToLbl, ASt.setReg, ASt.getReg, ASt.setFld,
        ASt.getFld, hlc, hc4, Ne.symm hL, Nat.max_eq_left hc4]
    · have h4 : max (st.cap * 2) 4 = 4 := by omega
      simp [runA, stepA, skipToLbl, ASt.setReg, ASt.getReg, ASt.setFld,
        ASt.getFld, hlc, hc4, Ne.symm hL, h4]

/-- After `k` pushes from an empty array: length `k`, capacity at least
`k`, and capacity in `{0, 4, 8, 16, 32, ...}`. -/
theorem pushIter_spec (reallocF : Nat → Nat → Nat)
    (elemSz skipL capOkL : Nat) (hL : skipL ≠ capOkL) (k : Nat) :
    (pushIter reallocF elemSz skipL capOkL k).len = k ∧
    k ≤ (pushIter reallocF elemSz skipL capOkL k).cap ∧
    ((pushIter reallocF elemSz skipL capOkL k).cap = 0 ∨
      ∃ i, (pushIter reallocF elemSz skipL capOkL k).cap = 4 * 2 ^ i) := by
  induction k with
  | zero => exact ⟨rfl, Nat.le_refl 0, Or.inl rfl⟩
  | succ k ih =>
    obtain ⟨hlen, hle, hpow⟩ := ih
    have h := run_push_spec reallocF elemSz skipL capOkL hL
      (pushIter reallocF elemSz skipL capOkL k)
    rw [show pushIter reallocF elemSz skipL capOkL (k + 1) =
      run_push reallocF elemSz skipL capOkL
        (pushIter reallocF elemSz skipL capOkL k) from rfl]
    refine ⟨by rw [h.1, hlen], ?_, ?_⟩
    · rw [h.2.1, hlen]
      by_cases hlc : k < (pushIter reallocF elemSz skipL capOkL k).cap
      · simp [hlc]; omega
      · simp [hlc]; omega
    · rw [h.2.1, hlen]
      by_cases hlc : k < (pushIter reallocF elemSz skipL capOkL k).cap
      · simp [hlc]; exact hpow
      · simp [hlc]
        rcases hpow with h0 | ⟨i, hi⟩
        · exact ⟨0, by rw [h0]; norm_num⟩
        · refine ⟨i + 1, ?_⟩
          rw [hi]
          have h24 : 4 ≤ 4 * 2 ^ i * 2 := by
            have h1 : 1 ≤ 2 ^ i := Nat.one_le_two_pow
            omega
          rw [Nat.max_eq_left h24]
          ring

/-- C3: the emitted array-push code grows the array only when the length
has reached the capacity, setting the new capacity to `max(cap*2, 4)`
before calling `realloc` with `capacity * elem_size`, then writes the
pushed value at `data + length * elem_size` and increments the stored
length by exactly one; consequently, after `k` pushes starting from an
empty array the capacity is at least `k` and is always an element of
`{0, 4, 8, 16, 32, ...}`.  The two label parameters stand for the fresh
labels `.Lskip_grow_N` / `.Lcap_ok_M`, always distinct in the source. -/
theorem C3_array_push_growth (reallocF : Nat → Nat → Nat)
    (elemSz skipL capOkL : Nat) (hL : skipL ≠ capOkL) :
    (∀ st : ASt,
      (run_push reallocF elemSz skipL capOkL st).len = st.len + 1 ∧
      (run_push reallocF elemSz skipL capOkL st).cap =
        (if st.len < st.cap then st.cap else max (st.cap * 2) 4) ∧
      (run_push reallocF elemSz skipL capOkL st).data =
        (if st.len < st.cap then st.data
         else reallocF st.data (max (st.cap * 2) 4 * elemSz)) ∧
      (run_push reallocF elemSz skipL capOkL st).reallocs =
        (if st.len < st.cap then st.reallocs
         else st.reallocs ++ [(st.data, max (st.cap * 2) 4 * elemSz)]) ∧
      (run_push reallocF elemSz skipL capOkL st).stores =
        st.stores ++
          [((run_push reallocF elemSz skipL capOkL st).data +
              st.len * elemSz, maskVal elemSz st.rax)]) ∧
    (∀ k : Nat,
      (pushIter reallocF elemSz skipL capOkL k).len = k ∧
      k ≤ (pushIter reallocF elemSz skipL capOkL k).cap ∧
      ((pushIter reallocF elemSz skipL capOkL k).cap = 0 ∨
        ∃ i, (pushIter reallocF elemSz skipL capOkL k).cap = 4 * 2 ^ i)) :=
  ⟨run_push_spec reallocF elemSz skipL capOkL hL,
   pushIter_spec reallocF elemSz skipL capOkL hL⟩

/-- C3 witness: five pushes of 8-byte elements from an empty array give
length 5 and capacity at least 5; the first push sets the capacity to 4. -/
theorem C3_array_push_growth_witness :
    (pushIter (fun p s => p + s) 8 1 2 5).len = 5 ∧
    5 ≤ (pushIter (fun p s => p + s) 8 1 2 5).cap ∧
    (run_push (fun p s => p + s) 8 1 2 emptyASt).cap = 4 := by
  have h := C3_array_push_growth (fun p s => p + s) 8 1 2 (by omega)
  refine ⟨(h.2 5).1, (h.2 5).2.1, ?_⟩
  have h2 := (h.1 emptyASt).2.1
  rw [h2]
  norm_num [emptyASt]

/-- A pass that fired no rewrite copies the line list unchanged. -/
theorem scanPass_unchanged : ∀ l : List String,
    (scanPass l).2 = false → (scanPass l).1 = l := by
  intro l
  induction l using scanPass.induct
  all_goals intro h
  all_goals rw [scanPass.eq_def] at h ⊢
  all_goals try simp_all
  all_goals try (split_ifs at * <;> simp_all)

/-- A pass never lengthens the line list, and a pass that fired some
rewrite strictly shortens it (each pattern drops at least one line). -/
theorem scanPass_length : ∀ l : List String,
    (scanPass l).1.length ≤ l.length ∧
    ((scanPass l).2 = true → (scanPass l).1.length < l.length) := by
  intro l
  induction l using scanPass.induct
  all_goals rw [scanPass.eq_def]
  all_goals try simp_all
  all_goals try (split_ifs at * <;> simp_all)
  all_goals omega

/-- With more fuel than lines the `while changed` loop reaches a list on
which a further pass makes no change (each changed pass strictly shrinks
the list, so the fuel never runs out — the loop behaves exactly like the
unbounded Python loop). -/
theorem optimize_loop_fix : ∀ (fuel : Nat) (l : List String),
    l.length < fuel →
    (scanPass (optimize_asm_loop fuel l)).2 = false := by
  intro fuel
  induction fuel with
  | zero => intro l h; exact absurd h (Nat.not_lt_zero _)
  | succ fuel ih =>
    intro l h
    rw [optimize_asm_loop]
    cases hp : (scanPass l).2
    · simp only [hp, Bool.false_eq_true, if_false]
      rw [scanPass_unchanged l hp]
      exact hp
    · simp only [hp, if_true]
      apply ih
      have h2 := (scanPass_length l).2 hp
      omega

/-- The optimizer's output is a fixed point: no pattern applies to it. -/
theorem optimize_asm_fixpoint (l : List String) :
    (scanPass (optimize_asm l)).2 = false :=
  optimize_loop_fix (l.length + 1) l (by omega)

/-- C8: the assembly peephole optimizer is idempotent: for every list of
assembly lines `L`, `optimize_asm (optimize_asm L) = optimize_asm L`; one
application already reaches a fixed point to which no rewrite pattern
applies. -/
theorem C8_optimize_asm_idempotent (L : List String) :
    optimize_asm (optimize_asm L) = optimize_asm L := by
  have hfix := optimize_asm_fixpoint L
  rw [show optimize_asm (optimize_asm L) =
    optimize_asm_loop ((optimize_asm L).length + 1) (optimize_asm L) from
    rfl]
  rw [optimize_asm_loop]
  simp only [hfix, Bool.false_eq_true, if_false]
  exact scanPass_unchanged (optimize_asm L) hfix

end C5c
